import Mathlib

/-!
Verification of the terraformer kubernetes provider core
(`kubernetes_provider.go`): kubeconfig-location resolution
(`initClientAndConfig`), the global option overlay
(`applyGlobalOptionsToConfig`), and catalog building
(`GetSupportedService`), embedded shallowly in Lean.
-/

set_option autoImplicit false

namespace Terraformer.Kubernetes

/-- The process environment, as seen by Go's `os.Getenv`: a total map from
variable name to value, with `""` meaning "unset or empty" (Go does not
distinguish the two through `os.Getenv`). -/
def Env : Type := String → String

/-- Point update of an environment, used to describe experiments that set a
single variable. -/
def envSet (env : Env) (key value : String) : Env :=
  fun k => if k = key then value else env k

/-- The environment where every variable is unset. -/
def emptyEnv : Env := fun _ => ""

/-! ### Go `path/filepath` (Unix rules), used by `initClientAndConfig` -/

/-- Split a character list at every occurrence of `sep`, accumulating the
current field in reverse. -/
def splitOnCharAux (sep : Char) : List Char → List Char → List String
  | [], acc => [String.mk acc.reverse]
  | c :: rest, acc =>
    if c = sep then String.mk acc.reverse :: splitOnCharAux sep rest []
    else splitOnCharAux sep rest (c :: acc)

/-- Split a string at every occurrence of the character `sep` (the
single-character case of `strings.Split`). -/
def splitOnChar (sep : Char) (s : String) : List String :=
  splitOnCharAux sep s.toList []

/-- Whether the path starts with the Unix path separator. -/
def headIsSlash (s : String) : Bool :=
  match s.toList with
  | '/' :: _ => true
  | _ => false

/-- One step of Go's lexical `Clean` algorithm: process one path component
against the stack of output components (held in reverse). `rooted` tells
whether the whole path is absolute, in which case `..` at the root is
dropped. -/
def cleanStep (rooted : Bool) (stack : List String) (comp : String) : List String :=
  if comp = "" ∨ comp = "." then stack
  else if comp = ".." then
    match stack with
    | [] => if rooted then [] else [".."]
    | top :: rest => if top = ".." then comp :: top :: rest else rest
  else comp :: stack

/-- Go's `filepath.Clean` (Unix separator): shortest equivalent lexical path.
Modelled from the Go standard library's documented algorithm: collapse
repeated separators, drop `.` components, resolve `..` against preceding
components, drop `..` at the root; the empty result becomes `.`. -/
def pathClean (p : String) : String :=
  if p = "" then "."
  else
    let rooted := headIsSlash p
    let comps := splitOnChar '/' p
    let out := (comps.foldl (cleanStep rooted) []).reverse
    let s := String.intercalate "/" out
    if rooted then "/" ++ s
    else if s = "" then "." else s

/-- Go's `filepath.Join` (Unix separator): ignore leading empty elements,
join the rest with `/`, and `Clean` the result; all-empty input yields `""`.
Modelled from the Go standard library (the source only calls it as
`filepath.Join(home, ".kube", "config")`). -/
def filepathJoin : List String → String
  | [] => ""
  | e :: rest =>
    if e = "" then filepathJoin rest
    else pathClean (String.intercalate "/" (e :: rest))

/-! ### Kubeconfig location resolution (`initClientAndConfig`, lines 151-175) -/

/-- The home directory as computed by `initClientAndConfig` lines 151-157.
The Go source declares a *new* variable `home :=` inside the
`runtime.GOOS == "windows"` block, shadowing the outer `home`; the inner
value (drive+path with user-profile fallback) never escapes the block, so
the function's `home` is `os.Getenv("HOME")` on every platform. The inner
computation is reproduced here as `shadowedHome` to mirror the source. -/
def resolveHome (env : Env) (goos : String) : String :=
  let home := env "HOME"
  if goos = "windows" then
    let shadowedHome := env "HOMEDRIVE" ++ env "HOMEPATH"
    let shadowedHome := if shadowedHome = "" then env "USERPROFILE" else shadowedHome
    let _ := shadowedHome
    home
  else home

/-- The platform-default kubeconfig path: `filepath.Join(home, ".kube",
"config")` (line 158). -/
def defaultKubeconfigPath (env : Env) (goos : String) : String :=
  filepathJoin [resolveHome env goos, ".kube", "config"]

/-- The kubeconfig path resolved by `initClientAndConfig` lines 151-171:
start from the platform default, overwrite with `KUBECONFIG` when non-empty,
then overwrite with the `--kubeconfig` flag value and finally the `--config`
flag value (the latter taking precedence when both are set). -/
def resolveKubeconfigPath (env : Env) (goos : String) : String :=
  let kubeconfig := defaultKubeconfigPath env goos
  let kubeconfigEnv := env "KUBECONFIG"
  let kubeconfig := if kubeconfigEnv.length > 0 then kubeconfigEnv else kubeconfig
  let configFile := env "KUBECTL_PLUGINS_GLOBAL_FLAG_CONFIG"
  let kubeConfigFile := env "KUBECTL_PLUGINS_GLOBAL_FLAG_KUBECONFIG"
  let kubeconfig :=
    if configFile.length > 0 then configFile
    else if kubeConfigFile.length > 0 then kubeConfigFile
    else kubeconfig
  kubeconfig

/-- The location-resolution stage of `initClientAndConfig` (lines 151-175):
resolve the path, then fail with the configuration-missing error when the
resolved path is empty, otherwise hand the path on to credential loading. -/
def initKubeconfigLocation (env : Env) (goos : String) : Except String String :=
  let kubeconfig := resolveKubeconfigPath env goos
  if kubeconfig.length = 0 then
    .error "error initializing config. The KUBECONFIG environment variable must be defined."
  else .ok kubeconfig

/-! ### Discovery data model and catalog building (`GetSupportedService`) -/

/-- `schema.GroupVersion` from the kubernetes apimachinery library: the two
components of a discovery `GroupVersion` string. -/
structure GroupVersion where
  group : String
  version : String
deriving DecidableEq, Repr

/-- `schema.ParseGroupVersion` (apimachinery): `""` and `"/"` parse to the
empty group/version; no slash means a bare version with empty group; one
slash splits into group and version; more than one slash is an error. -/
def parseGroupVersion (gv : String) : Except String GroupVersion :=
  if gv.length = 0 ∨ gv = "/" then .ok { group := "", version := "" }
  else
    match splitOnChar '/' gv with
    | [v] => .ok { group := "", version := v }
    | [g, v] => .ok { group := g, version := v }
    | _ => .error ("unexpected GroupVersion string: " ++ gv)

/-- One discovery entry (`metav1.APIResource`), restricted to the fields the
source reads: plural resource name, kind name, namespaced flag and verb
set. -/
structure APIResource where
  name : String
  kind : String
  namespaced : Bool
  verbs : List String
deriving DecidableEq, Repr

/-- One group/version's resource list (`metav1.APIResourceList`). -/
structure APIResourceList where
  groupVersion : String
  apiResources : List APIResource
deriving DecidableEq, Repr

/-- The `Kind` struct of the kubernetes provider: descriptor of one
importable resource type (source lines 133-138 populate it). -/
structure Kind where
  group : String
  version : String
  name : String
  namespaced : Bool
deriving DecidableEq, Repr

/-- The catalog built by `GetSupportedService`: the Go
`map[string]terraform_utils.ServiceGenerator` keyed by plural resource
name, modelled as an association list whose keys stay unique. -/
@[reducible] def Catalog : Type := List (String × Kind)

/-- Go map assignment `m[k] = v`: overwrite the binding when the key is
present, otherwise add it. -/
def mapInsert : Catalog → String → Kind → Catalog
  | [], key, v => [(key, v)]
  | (k, v') :: rest, key, v =>
    if k = key then (key, v) :: rest else (k, v') :: mapInsert rest key v

/-- Go map read `m[k]`. -/
def mapLookup : Catalog → String → Option Kind
  | [], _ => none
  | (k, v) :: rest, key => if k = key then some v else mapLookup rest key

/-- Modelled from the spec: `extractTfResourceName`, the kind-name
normalization applied before the schema lookup (line 129), is defined in a
repository file that is not part of the provided source. The spec describes
it as "a deterministic, provider-specific name transform" to be treated as
a pluggable collaborator, so the development abstracts it as a function
parameter `normalize` of this type. -/
abbrev NormalizeKind : Type := String → String

/-- The body of the inner loop of `GetSupportedService` (lines 118-139):
skip a resource with no verbs, skip one whose verb set lacks `"list"`
(`sets.NewString(resource.Verbs...).Has("list")` is membership in the verb
list), skip one whose normalized kind name the schema provider does not
declare, and otherwise insert a `Kind` under the plural resource name. -/
def catalogInsertResource (normalize : NormalizeKind) (resourceTypes : List String)
    (gv : GroupVersion) (resources : Catalog) (resource : APIResource) : Catalog :=
  if resource.verbs.length = 0 then resources
  else if resource.verbs.length > 0 ∧ "list" ∉ resource.verbs then resources
  else if normalize resource.kind ∉ resourceTypes then resources
  else
    mapInsert resources resource.name
      { group := gv.group, version := gv.version,
        name := resource.kind, namespaced := resource.namespaced }

/-- The body of the outer loop of `GetSupportedService` (lines 108-140):
skip an empty resource list, skip the whole entry when its group/version
string fails to parse, and otherwise run the inner loop over its
resources. -/
def catalogAddList (normalize : NormalizeKind) (resourceTypes : List String)
    (resources : Catalog) (list : APIResourceList) : Catalog :=
  if list.apiResources.length = 0 then resources
  else
    match parseGroupVersion list.groupVersion with
    | .error _ => resources
    | .ok gv => list.apiResources.foldl (catalogInsertResource normalize resourceTypes gv) resources

/-- The pure filtering/accumulation part of `GetSupportedService` (lines
107-141), given the schema provider's declared resource-type names and the
kind-name normalization. -/
def buildCatalog (normalize : NormalizeKind) (resourceTypes : List String)
    (lists : List APIResourceList) : Catalog :=
  lists.foldl (catalogAddList normalize resourceTypes) []

/-! ### `encoding/json` for a `[]string` target (used by the `--as-group`
override) -/

/-- Skip JSON whitespace. -/
def jsonSkipWs : List Char → List Char
  | [] => []
  | c :: rest =>
    if c = ' ' ∨ c = '\t' ∨ c = '\n' ∨ c = '\r' then jsonSkipWs rest else c :: rest

/-- Hexadecimal digit test for `\uXXXX` escapes. -/
def isHexDigitChar (c : Char) : Prop :=
  c.isDigit ∨ ('a' ≤ c ∧ c ≤ 'f') ∨ ('A' ≤ c ∧ c ≤ 'F')

instance (c : Char) : Decidable (isHexDigitChar c) := by
  unfold isHexDigitChar; infer_instance

/-- Decode one escape or literal character of a JSON string, the opening
quote already consumed; accumulates decoded characters in reverse. Modelled
from `encoding/json` (`\uXXXX` is mapped through `Char.ofNat`; surrogate
pairing is not reproduced, which no claim exercises). Error messages are
abbreviated relative to Go's. -/
def jsonParseStringBody (acc : List Char) : List Char → Except String (String × List Char)
  | [] => .error "unexpected end of JSON input"
  | c :: rest =>
    if c = '"' then .ok (String.mk acc.reverse, rest)
    else if c = '\\' then
      match rest with
      | [] => .error "unexpected end of JSON input"
      | e :: rest' =>
        if e = '"' ∨ e = '\\' ∨ e = '/' then jsonParseStringBody (e :: acc) rest'
        else if e = 'b' then jsonParseStringBody ('\x08' :: acc) rest'
        else if e = 'f' then jsonParseStringBody ('\x0c' :: acc) rest'
        else if e = 'n' then jsonParseStringBody ('\n' :: acc) rest'
        else if e = 'r' then jsonParseStringBody ('\x0d' :: acc) rest'
        else if e = 't' then jsonParseStringBody ('\t' :: acc) rest'
        else if e = 'u' then
          match rest' with
          | h1 :: h2 :: h3 :: h4 :: rest'' =>
            if isHexDigitChar h1 ∧ isHexDigitChar h2 ∧ isHexDigitChar h3 ∧ isHexDigitChar h4 then
              let hex := fun (c : Char) =>
                if c.isDigit then c.toNat - 48
                else if 'a' ≤ c ∧ c ≤ 'f' then c.toNat - 87 else c.toNat - 55
              jsonParseStringBody
                (Char.ofNat (((hex h1 * 16 + hex h2) * 16 + hex h3) * 16 + hex h4) :: acc) rest''
            else .error "invalid character in string escape code"
          | _ => .error "unexpected end of JSON input"
        else .error "invalid character in string escape code"
    else if c.toNat < 32 then .error "invalid character in string literal"
    else jsonParseStringBody (c :: acc) rest

/-- The element loop of a JSON array of strings: each element must be a
string, elements separated by `,`, terminated by `]`. `fuel` bounds the
iteration count (one element consumes at least two characters, so
`length + 1` fuel never runs out). -/
def jsonParseStringItems (fuel : Nat) (acc : List String) (cs : List Char) :
    Except String (List String × List Char) :=
  match fuel with
  | 0 => .error "unexpected end of JSON input"
  | fuel + 1 =>
    match jsonSkipWs cs with
    | [] => .error "unexpected end of JSON input"
    | c :: rest =>
      if c = '"' then
        match jsonParseStringBody [] rest with
        | .error e => .error e
        | .ok (s, rest') =>
          match jsonSkipWs rest' with
          | [] => .error "unexpected end of JSON input"
          | c' :: rest'' =>
            if c' = ',' then jsonParseStringItems fuel (s :: acc) rest''
            else if c' = ']' then .ok ((s :: acc).reverse, rest'')
            else .error "invalid character after array element"
      else .error "json: cannot unmarshal value into Go value of type string"

/-- `json.Unmarshal(data, &x)` for `x : []string`: accepts an array of JSON
strings, or the literal `null` (which leaves the target slice unchanged —
still the empty slice the caller initialized, so it is modelled as the
empty list); anything else, trailing garbage included, is an error.
Modelled from `encoding/json`; error messages abbreviated. -/
def jsonUnmarshalStringArray (s : String) : Except String (List String) :=
  match jsonSkipWs s.toList with
  | [] => .error "unexpected end of JSON input"
  | c :: rest =>
    if c = 'n' then
      match rest with
      | 'u' :: 'l' :: 'l' :: rest' =>
        if jsonSkipWs rest' = [] then .ok []
        else .error "invalid character after top-level value"
      | _ => .error "invalid character in literal null"
    else if c = '[' then
      match jsonSkipWs rest with
      | ']' :: rest' =>
        if jsonSkipWs rest' = [] then .ok []
        else .error "invalid character after top-level value"
      | cs =>
        match jsonParseStringItems (s.length + 1) [] cs with
        | .error e => .error e
        | .ok (items, rest') =>
          if jsonSkipWs rest' = [] then .ok items
          else .error "invalid character after top-level value"
    else .error "json: cannot unmarshal value into Go value of type []string"

/-! ### `time.ParseDuration` (used by the request-timeout override) -/

/-- Go's `%q` on the plain strings that appear here: wrap in double
quotes. -/
def goQuote (s : String) : String := "\"" ++ s ++ "\""

/-- Digit run to value. -/
def digitsToNat (ds : List Char) : Nat :=
  ds.foldl (fun a c => a * 10 + (c.toNat - 48)) 0

/-- The unit table of `time.ParseDuration`, in nanoseconds. -/
def durationUnits : List (String × Nat) :=
  [("ns", 1), ("us", 1000), ("µs", 1000), ("μs", 1000), ("ms", 1000000),
   ("s", 1000000000), ("m", 60000000000), ("h", 3600000000000)]

/-- The main loop of `time.ParseDuration`: repeatedly read an integer part,
an optional fraction, and a unit, and accumulate value × unit. Modelled
from the Go standard library; the fractional contribution uses integer
floor division where Go goes through a float, and the int64 overflow checks
are omitted — neither difference is exercised by any claim. -/
def parseDurationLoop (orig : String) : Nat → List Char → Int → Except String Int
  | 0, _, _ => .error ("time: invalid duration " ++ goQuote orig)
  | _ + 1, [], acc => .ok acc
  | fuel + 1, cs, acc =>
    let intDigits := cs.takeWhile Char.isDigit
    let cs1 := cs.dropWhile Char.isDigit
    let v := digitsToNat intDigits
    let pre := !intDigits.isEmpty
    let frac :=
      match cs1 with
      | '.' :: cs1' =>
        let fracDigits := cs1'.takeWhile Char.isDigit
        (!fracDigits.isEmpty, digitsToNat fracDigits, (10 : Nat) ^ fracDigits.length,
          cs1'.dropWhile Char.isDigit)
      | _ => (false, 0, 1, cs1)
    match frac with
    | (post, f, scale, cs2) =>
      if !pre && !post then .error ("time: invalid duration " ++ goQuote orig)
      else
        let unitChars := cs2.takeWhile (fun c => ¬ (c = '.' ∨ c.isDigit))
        let rest := cs2.dropWhile (fun c => ¬ (c = '.' ∨ c.isDigit))
        let unit := String.mk unitChars
        if unit = "" then .error ("time: missing unit in duration " ++ goQuote orig)
        else
          match durationUnits.find? (fun p => p.1 = unit) with
          | none => .error ("time: unknown unit " ++ goQuote unit ++ " in duration " ++ goQuote orig)
          | some (_, u) =>
            parseDurationLoop orig fuel rest (acc + ((v * u : Nat) + ((f * u) / scale : Nat)))

/-- `time.ParseDuration`: optional sign, the special case `"0"`, then the
number+unit loop; returns nanoseconds. -/
def timeParseDuration (s : String) : Except String Int :=
  let cs := s.toList
  let signed :=
    match cs with
    | '-' :: rest => (true, rest)
    | '+' :: rest => (false, rest)
    | _ => (false, cs)
  match signed with
  | (neg, cs') =>
    if String.mk cs' = "0" then .ok 0
    else if cs' = [] then .error ("time: invalid duration " ++ goQuote s)
    else
      match parseDurationLoop s (cs'.length + 1) cs' 0 with
      | .error e => .error e
      | .ok v => .ok (if neg then -v else v)

/-! ### `restclient.Config` and the global option overlay -/

/-- `restclient.ImpersonationConfig`, restricted to the fields the source
writes. -/
structure ImpersonationConfig where
  userName : String
  groups : List String
deriving DecidableEq, Repr

/-- `restclient.TLSClientConfig`, restricted to the fields the source
writes. -/
structure TLSClientConfig where
  caFile : String
  certFile : String
  keyFile : String
deriving DecidableEq, Repr

/-- `restclient.Config`, restricted to the fields `applyGlobalOptionsToConfig`
writes; `timeout` is in nanoseconds (Go `time.Duration`). -/
structure RestConfig where
  impersonate : ImpersonationConfig
  tlsClientConfig : TLSClientConfig
  timeout : Int
  serverName : String
  bearerToken : String
  username : String
  password : String
deriving DecidableEq, Repr

/-- A zero-valued `restclient.Config`. -/
def emptyRestConfig : RestConfig :=
  { impersonate := { userName := "", groups := [] },
    tlsClientConfig := { caFile := "", certFile := "", keyFile := "" },
    timeout := 0, serverName := "", bearerToken := "", username := "", password := "" }

/-- The tail of `applyGlobalOptionsToConfig` after the request-timeout
early return (lines 274-294): server name, bearer token, username,
password; these steps cannot fail. -/
def applyServerAndAuthOptions (env : Env) (config : RestConfig) : RestConfig :=
  let server := env "KUBECTL_PLUGINS_GLOBAL_FLAG_SERVER"
  let config := if server.length > 0 then { config with serverName := server } else config
  let token := env "KUBECTL_PLUGINS_GLOBAL_FLAG_TOKEN"
  let config := if token.length > 0 then { config with bearerToken := token } else config
  let username := env "KUBECTL_PLUGINS_GLOBAL_FLAG_USERNAME"
  let config := if username.length > 0 then { config with username := username } else config
  let password := env "KUBECTL_PLUGINS_GLOBAL_FLAG_PASSWORD"
  let config := if password.length > 0 then { config with password := password } else config
  config

/-- The part of `applyGlobalOptionsToConfig` after the impersonation-group
early return (lines 238-295): TLS file overrides, the cluster-name and
user-name lookups whose `if` bodies are empty in the source (`TODO` there,
so both branches leave the configuration unchanged here), and the
request-timeout override whose parse failure returns the bare parse error
(`errors.New(fmt.Sprintf("%v", err))`). The first component is the
returned error, the second the configuration as mutated so far. -/
def applyTLSAndRequestOptions (env : Env) (config : RestConfig) : Option String × RestConfig :=
  let caFile := env "KUBECTL_PLUGINS_GLOBAL_FLAG_CERTIFICATE_AUTHORITY"
  let config := if caFile.length > 0 then { config with tlsClientConfig.caFile := caFile } else config
  let clientCertFile := env "KUBECTL_PLUGINS_GLOBAL_FLAG_CLIENT_CERTIFICATE"
  let config :=
    if clientCertFile.length > 0 then { config with tlsClientConfig.certFile := clientCertFile }
    else config
  let clientKey := env "KUBECTL_PLUGINS_GLOBAL_FLAG_CLIENT_KEY"
  let config := if clientKey.length > 0 then { config with tlsClientConfig.keyFile := clientKey } else config
  let cluster := env "KUBECTL_PLUGINS_GLOBAL_FLAG_CLUSTER"
  let config := if cluster.length > 0 then config else config
  let user := env "KUBECTL_PLUGINS_GLOBAL_FLAG_USER"
  let config := if user.length > 0 then config else config
  let requestTimeout := env "KUBECTL_PLUGINS_GLOBAL_FLAG_REQUEST_TIMEOUT"
  if requestTimeout.length > 0 then
    match timeParseDuration requestTimeout with
    | .error err => (some err, config)
    | .ok t => (none, applyServerAndAuthOptions env { config with timeout := t })
  else (none, applyServerAndAuthOptions env config)

/-- `applyGlobalOptionsToConfig` (lines 219-295): the impersonation-user
override, then the impersonation-group override — a non-empty value is
parsed as a JSON array of strings, a parse failure returns the
`--as-group`-naming error with the configuration as mutated so far, an
empty parsed list applies no replacement — then the remaining sections.
The Go function mutates `config` in place and returns an `error`; the model
returns the error (if any) together with the configuration state at
return. -/
def applyGlobalOptionsToConfig (env : Env) (config : RestConfig) : Option String × RestConfig :=
  let impersonateUser := env "KUBECTL_PLUGINS_GLOBAL_FLAG_AS"
  let config :=
    if impersonateUser.length > 0 then { config with impersonate.userName := impersonateUser }
    else config
  let impersonateGroup := env "KUBECTL_PLUGINS_GLOBAL_FLAG_AS_GROUP"
  if impersonateGroup.length > 0 then
    match jsonUnmarshalStringArray impersonateGroup with
    | .error err =>
      (some ("error parsing global option \"--as-group\": " ++ err), config)
    | .ok impersonateGroupJSON =>
      let config :=
        if impersonateGroupJSON.length > 0 then
          { config with impersonate.groups := impersonateGroupJSON }
        else config
      applyTLSAndRequestOptions env config
  else applyTLSAndRequestOptions env config

/-- The schema response of the provider wrapper: the source only tests
membership in `resp.ResourceTypes`, so the model keeps the declared
resource-type names. -/
structure ProviderResponse where
  resourceTypes : List String
deriving DecidableEq, Repr

/-- The outcomes of the effectful calls `GetSupportedService` makes, in
order: `initClientAndConfig` (line 86), `discovery.NewDiscoveryClientForConfig`
(line 91), `dc.ServerPreferredResources` (line 97) and
`provider_wrapper.NewProviderWrapper` (line 102). -/
structure ClusterSession where
  initResult : Except String Unit
  discoveryClientResult : Except String Unit
  serverPreferredResources : Except String (List APIResourceList)
  providerWrapperResult : Except String ProviderResponse

/-- `GetSupportedService` (lines 83-142): each failing call short-circuits
to the (still empty) `resources` map; on success the discovery lists are
filtered against the provider schema into the catalog. -/
def getSupportedService (normalize : NormalizeKind) (s : ClusterSession) : Catalog :=
  match s.initResult with
  | .error _ => []
  | .ok _ =>
    match s.discoveryClientResult with
    | .error _ => []
    | .ok _ =>
      match s.serverPreferredResources with
      | .error _ => []
      | .ok lists =>
        match s.providerWrapperResult with
        | .error _ => []
        | .ok resp => buildCatalog normalize resp.resourceTypes lists

/-! ### Helper lemmas -/

theorem string_length_eq_zero_iff (s : String) : s.length = 0 ↔ s = "" := by
  cases s with
  | mk l => simp [String.length, String.ext_iff]

theorem pathClean_ne_empty (p : String) : pathClean p ≠ "" := by
  unfold pathClean
  split
  · simp
  · dsimp only
    split
    · intro h
      have hdata := congrArg String.data h
      simp [String.data_append] at hdata
    · split
      · simp
      · assumption

theorem filepathJoin_home_kube_ne_empty (home : String) :
    filepathJoin [home, ".kube", "config"] ≠ "" := by
  by_cases hh : home = ""
  · simp [hh, filepathJoin, pathClean_ne_empty]
  · simp [filepathJoin, hh, pathClean_ne_empty]

theorem defaultKubeconfigPath_ne_empty (env : Env) (goos : String) :
    defaultKubeconfigPath env goos ≠ "" := by
  unfold defaultKubeconfigPath
  exact filepathJoin_home_kube_ne_empty _

/-- The precedence characterization of the resolved kubeconfig path,
shared by the location-resolution theorems. -/
theorem resolveKubeconfigPath_eq (env : Env) (goos : String) :
    resolveKubeconfigPath env goos =
      if env "KUBECTL_PLUGINS_GLOBAL_FLAG_CONFIG" ≠ "" then
        env "KUBECTL_PLUGINS_GLOBAL_FLAG_CONFIG"
      else if env "KUBECTL_PLUGINS_GLOBAL_FLAG_KUBECONFIG" ≠ "" then
        env "KUBECTL_PLUGINS_GLOBAL_FLAG_KUBECONFIG"
      else if env "KUBECONFIG" ≠ "" then env "KUBECONFIG"
      else defaultKubeconfigPath env goos := by
  unfold resolveKubeconfigPath
  by_cases h1 : env "KUBECTL_PLUGINS_GLOBAL_FLAG_CONFIG" = "" <;>
    by_cases h2 : env "KUBECTL_PLUGINS_GLOBAL_FLAG_KUBECONFIG" = "" <;>
      by_cases h3 : env "KUBECONFIG" = "" <;>
        simp [h1, h2, h3, Nat.pos_iff_ne_zero, string_length_eq_zero_iff]

theorem resolveKubeconfigPath_ne_empty (env : Env) (goos : String) :
    resolveKubeconfigPath env goos ≠ "" := by
  rw [resolveKubeconfigPath_eq]
  by_cases h1 : env "KUBECTL_PLUGINS_GLOBAL_FLAG_CONFIG" = "" <;>
    by_cases h2 : env "KUBECTL_PLUGINS_GLOBAL_FLAG_KUBECONFIG" = "" <;>
      by_cases h3 : env "KUBECONFIG" = "" <;>
        simp [h1, h2, h3, defaultKubeconfigPath_ne_empty]

/-- A discovery resource passes both filters of the inner loop: its verb
set includes `"list"` and the schema provider declares its normalized kind
name. -/
def acceptedResource (normalize : String → String) (resourceTypes : List String)
    (r : APIResource) : Prop :=
  "list" ∈ r.verbs ∧ normalize r.kind ∈ resourceTypes

instance (normalize : String → String) (resourceTypes : List String) (r : APIResource) :
    Decidable (acceptedResource normalize resourceTypes r) := by
  unfold acceptedResource; infer_instance

/-- The kind descriptor the inner loop emits for a resource. -/
def kindOf (gv : GroupVersion) (r : APIResource) : Kind :=
  { group := gv.group, version := gv.version, name := r.kind, namespaced := r.namespaced }

/-- The last resource of `rs` (in iteration order) that passes the filters
and has plural name `n` — the one whose `Kind` a Go map holds after the
inner loop. -/
def lastAccepted (normalize : String → String) (resourceTypes : List String) (n : String) :
    List APIResource → Option APIResource
  | [] => none
  | r :: rs =>
    match lastAccepted normalize resourceTypes n rs with
    | some r' => some r'
    | none => if acceptedResource normalize resourceTypes r ∧ r.name = n then some r else none

/-- The `Kind` the catalog holds under key `n` after processing `ls`. -/
def lastHitList (normalize : String → String) (resourceTypes : List String) (n : String) :
    List APIResourceList → Option Kind
  | [] => none
  | l :: ls =>
    match lastHitList normalize resourceTypes n ls with
    | some k => some k
    | none =>
      match parseGroupVersion l.groupVersion with
      | .error _ => none
      | .ok gv =>
        match lastAccepted normalize resourceTypes n l.apiResources with
        | some r => some (kindOf gv r)
        | none => none

theorem mapLookup_insert (m : Catalog) (k : String) (v : Kind) (n : String) :
    mapLookup (mapInsert m k v) n = if k = n then some v else mapLookup m n := by
  induction m with
  | nil => simp [mapInsert, mapLookup]
  | cons hd tl ih =>
    obtain ⟨k', v'⟩ := hd
    by_cases hk : k' = k
    · subst hk
      simp only [mapInsert, if_pos rfl, mapLookup]
      by_cases hn : k' = n <;> simp [hn]
    · simp only [mapInsert, if_neg hk, mapLookup, ih]
      by_cases hn : k' = n
      · have hkn : k ≠ n := fun h => hk (hn.trans h.symm)
        simp [hn, hkn]
      · simp [hn]

theorem mapLookup_insertResource (normalize : String → String) (resourceTypes : List String)
    (gv : GroupVersion) (acc : Catalog) (r : APIResource) (n : String) :
    mapLookup (catalogInsertResource normalize resourceTypes gv acc r) n =
      if acceptedResource normalize resourceTypes r ∧ r.name = n then some (kindOf gv r)
      else mapLookup acc n := by
  unfold catalogInsertResource
  by_cases h0 : r.verbs.length = 0
  · have hnil : r.verbs = [] := List.length_eq_zero.mp h0
    simp [h0, acceptedResource, hnil]
  · rw [if_neg h0]
    by_cases hv : "list" ∈ r.verbs
    · have hc2 : ¬(r.verbs.length > 0 ∧ "list" ∉ r.verbs) := fun h => h.2 hv
      rw [if_neg hc2]
      by_cases ht : normalize r.kind ∈ resourceTypes
      · rw [if_neg (fun h => h ht), mapLookup_insert]
        simp [acceptedResource, kindOf, hv, ht]
      · rw [if_pos ht]
        simp [acceptedResource, ht]
    · rw [if_pos ⟨Nat.pos_of_ne_zero h0, hv⟩]
      simp [acceptedResource, hv]

theorem mapLookup_foldl_insertResource (normalize : String → String)
    (resourceTypes : List String) (gv : GroupVersion) (n : String) (rs : List APIResource) :
    ∀ acc : Catalog,
      mapLookup (rs.foldl (catalogInsertResource normalize resourceTypes gv) acc) n =
        match lastAccepted normalize resourceTypes n rs with
        | some r => some (kindOf gv r)
        | none => mapLookup acc n := by
  induction rs with
  | nil => intro acc; simp [lastAccepted]
  | cons r rs ih =>
    intro acc
    rw [List.foldl_cons, ih]
    cases hla : lastAccepted normalize resourceTypes n rs with
    | some r' => simp [lastAccepted, hla]
    | none =>
      simp only [lastAccepted, hla, mapLookup_insertResource]
      by_cases h : acceptedResource normalize resourceTypes r ∧ r.name = n <;> simp [h]

theorem mapLookup_catalogAddList (normalize : String → String) (resourceTypes : List String)
    (n : String) (l : APIResourceList) (acc : Catalog) :
    mapLookup (catalogAddList normalize resourceTypes acc l) n =
      match lastHitList normalize resourceTypes n [l] with
      | some k => some k
      | none => mapLookup acc n := by
  unfold catalogAddList lastHitList
  by_cases hlen : l.apiResources.length = 0
  · have : l.apiResources = [] := List.length_eq_zero.mp hlen
    simp [hlen, this, lastHitList, lastAccepted]
    cases parseGroupVersion l.groupVersion <;> simp
  · simp only [hlen, ite_false, if_neg hlen]
    cases hgv : parseGroupVersion l.groupVersion with
    | error e => simp [lastHitList]
    | ok gv =>
      rw [mapLookup_foldl_insertResource]
      simp only [lastHitList]
      cases lastAccepted normalize resourceTypes n l.apiResources <;> simp

theorem mapLookup_buildCatalog (normalize : String → String) (resourceTypes : List String)
    (n : String) (ls : List APIResourceList) :
    mapLookup (buildCatalog normalize resourceTypes ls) n =
      lastHitList normalize resourceTypes n ls := by
  suffices h : ∀ acc : Catalog,
      mapLookup (ls.foldl (catalogAddList normalize resourceTypes) acc) n =
        match lastHitList normalize resourceTypes n ls with
        | some k => some k
        | none => mapLookup acc n by
    rw [buildCatalog, h []]
    cases lastHitList normalize resourceTypes n ls <;> simp [mapLookup]
  induction ls with
  | nil => intro acc; simp [lastHitList]
  | cons l ls ih =>
    intro acc
    rw [List.foldl_cons, ih]
    cases hll : lastHitList normalize resourceTypes n ls with
    | some k => simp [lastHitList, hll]
    | none =>
      simp only [lastHitList, hll]
      rw [mapLookup_catalogAddList]
      simp only [lastHitList]

theorem lastAccepted_eq_some (normalize : String → String) (resourceTypes : List String)
    (n : String) (rs : List APIResource) (r : APIResource)
    (h : lastAccepted normalize resourceTypes n rs = some r) :
    r ∈ rs ∧ acceptedResource normalize resourceTypes r ∧ r.name = n := by
  induction rs with
  | nil => simp [lastAccepted] at h
  | cons hd tl ih =>
    cases hla : lastAccepted normalize resourceTypes n tl with
    | some r' =>
      simp only [lastAccepted, hla, Option.some.injEq] at h
      subst h
      obtain ⟨hm, hx⟩ := ih hla
      exact ⟨List.mem_cons_of_mem _ hm, hx⟩
    | none =>
      simp only [lastAccepted, hla] at h
      by_cases hc : acceptedResource normalize resourceTypes hd ∧ hd.name = n
      · rw [if_pos hc, Option.some.injEq] at h
        subst h
        exact ⟨List.mem_cons_self _ _, hc⟩
      · rw [if_neg hc] at h
        simp at h

theorem lastAccepted_eq_none_iff (normalize : String → String) (resourceTypes : List String)
    (n : String) (rs : List APIResource) :
    lastAccepted normalize resourceTypes n rs = none ↔
      ∀ r ∈ rs, ¬(acceptedResource normalize resourceTypes r ∧ r.name = n) := by
  induction rs with
  | nil => simp [lastAccepted]
  | cons hd tl ih =>
    cases hla : lastAccepted normalize resourceTypes n tl with
    | some r' =>
      obtain ⟨hm, hx⟩ := lastAccepted_eq_some _ _ _ _ _ hla
      simp only [lastAccepted, hla]
      constructor
      · intro hfalse; simp at hfalse
      · intro hall; exact absurd hx (hall r' (List.mem_cons_of_mem _ hm))
    | none =>
      have hall := ih.mp hla
      simp only [lastAccepted, hla]
      constructor
      · intro h r hr hx
        rcases List.mem_cons.mp hr with heq | hmem
        · subst heq
          rw [if_pos hx] at h
          simp at h
        · exact hall r hmem hx
      · intro hcons
        rw [if_neg (hcons hd (List.mem_cons_self _ _))]

theorem lastHitList_eq_some (normalize : String → String) (resourceTypes : List String)
    (n : String) (ls : List APIResourceList) (k : Kind)
    (h : lastHitList normalize resourceTypes n ls = some k) :
    ∃ l ∈ ls, ∃ gv, parseGroupVersion l.groupVersion = .ok gv ∧
      ∃ r ∈ l.apiResources, acceptedResource normalize resourceTypes r ∧ r.name = n ∧
        k = kindOf gv r := by
  induction ls with
  | nil => simp [lastHitList] at h
  | cons hd tl ih =>
    cases hll : lastHitList normalize resourceTypes n tl with
    | some k' =>
      simp only [lastHitList, hll, Option.some.injEq] at h
      subst h
      obtain ⟨l, hl, rest⟩ := ih hll
      exact ⟨l, List.mem_cons_of_mem _ hl, rest⟩
    | none =>
      simp only [lastHitList, hll] at h
      cases hgv : parseGroupVersion hd.groupVersion with
      | error e =>
        simp only [hgv] at h
        exact Option.noConfusion h
      | ok gv =>
        simp only [hgv] at h
        cases hla : lastAccepted normalize resourceTypes n hd.apiResources with
        | none =>
          simp only [hla] at h
          exact Option.noConfusion h
        | some r =>
          simp only [hla, Option.some.injEq] at h
          subst h
          obtain ⟨hm, hacc, hn⟩ := lastAccepted_eq_some _ _ _ _ _ hla
          exact ⟨hd, List.mem_cons_self _ _, gv, hgv, r, hm, hacc, hn, rfl⟩

theorem lastHitList_eq_none_iff (normalize : String → String) (resourceTypes : List String)
    (n : String) (ls : List APIResourceList) :
    lastHitList normalize resourceTypes n ls = none ↔
      ∀ l ∈ ls, ∀ gv, parseGroupVersion l.groupVersion = .ok gv →
        ∀ r ∈ l.apiResources, ¬(acceptedResource normalize resourceTypes r ∧ r.name = n) := by
  induction ls with
  | nil => simp [lastHitList]
  | cons hd tl ih =>
    constructor
    · intro h l hl gv hgv r hr hx
      cases hll : lastHitList normalize resourceTypes n tl with
      | some k' =>
        simp only [lastHitList, hll] at h
        exact Option.noConfusion h
      | none =>
        simp only [lastHitList, hll] at h
        rcases List.mem_cons.mp hl with heq | hmem
        · subst heq
          simp only [hgv] at h
          cases hla : lastAccepted normalize resourceTypes n l.apiResources with
          | some r' =>
            simp only [hla] at h
            exact Option.noConfusion h
          | none => exact (lastAccepted_eq_none_iff _ _ _ _).mp hla r hr hx
        · exact (ih.mp hll) l hmem gv hgv r hr hx
    · intro hall
      have hll : lastHitList normalize resourceTypes n tl = none :=
        ih.mpr fun l hl => hall l (List.mem_cons_of_mem _ hl)
      have hhd := hall hd (List.mem_cons_self _ _)
      simp only [lastHitList, hll]
      cases hgv : parseGroupVersion hd.groupVersion with
      | error e => rfl
      | ok gv =>
        have hla : lastAccepted normalize resourceTypes n hd.apiResources = none :=
          (lastAccepted_eq_none_iff _ _ _ _).mpr (hhd gv hgv)
        rw [hla]

theorem mem_keys_insert (m : Catalog) (k : String) (v : Kind) (a : String) :
    a ∈ (mapInsert m k v).map Prod.fst ↔ a ∈ m.map Prod.fst ∨ a = k := by
  induction m with
  | nil => simp [mapInsert]
  | cons hd tl ih =>
    obtain ⟨k', v'⟩ := hd
    by_cases hk : k' = k
    · simp only [mapInsert, if_pos hk, List.map_cons, List.mem_cons]
      subst hk
      tauto
    · simp only [mapInsert, if_neg hk, List.map_cons, List.mem_cons, ih]
      tauto

theorem nodup_keys_insert (m : Catalog) (k : String) (v : Kind)
    (h : (m.map Prod.fst).Nodup) : ((mapInsert m k v).map Prod.fst).Nodup := by
  induction m with
  | nil => simp [mapInsert]
  | cons hd tl ih =>
    obtain ⟨k', v'⟩ := hd
    simp only [List.map_cons, List.nodup_cons] at h
    by_cases hk : k' = k
    · simp only [mapInsert, if_pos hk, List.map_cons, List.nodup_cons]
      subst hk
      exact h
    · simp only [mapInsert, if_neg hk, List.map_cons, List.nodup_cons, mem_keys_insert]
      exact ⟨fun hor => hor.elim h.1 hk, ih h.2⟩

theorem nodup_keys_insertResource (normalize : String → String) (resourceTypes : List String)
    (gv : GroupVersion) (acc : Catalog) (r : APIResource)
    (h : (acc.map Prod.fst).Nodup) :
    ((catalogInsertResource normalize resourceTypes gv acc r).map Prod.fst).Nodup := by
  unfold catalogInsertResource
  split
  · exact h
  · split
    · exact h
    · split
      · exact h
      · exact nodup_keys_insert _ _ _ h

theorem nodup_keys_foldl_insertResource (normalize : String → String)
    (resourceTypes : List String) (gv : GroupVersion) (rs : List APIResource) :
    ∀ acc : Catalog, (acc.map Prod.fst).Nodup →
      ((rs.foldl (catalogInsertResource normalize resourceTypes gv) acc).map Prod.fst).Nodup := by
  induction rs with
  | nil => intro acc h; exact h
  | cons r rs ih =>
    intro acc h
    rw [List.foldl_cons]
    exact ih _ (nodup_keys_insertResource _ _ _ _ _ h)

theorem nodup_keys_catalogAddList (normalize : String → String) (resourceTypes : List String)
    (l : APIResourceList) (acc : Catalog) (h : (acc.map Prod.fst).Nodup) :
    ((catalogAddList normalize resourceTypes acc l).map Prod.fst).Nodup := by
  unfold catalogAddList
  split
  · exact h
  · split
    · exact h
    · exact nodup_keys_foldl_insertResource _ _ _ _ _ h

theorem nodup_keys_buildCatalog (normalize : String → String) (resourceTypes : List String)
    (ls : List APIResourceList) :
    ((buildCatalog normalize resourceTypes ls).map Prod.fst).Nodup := by
  suffices h : ∀ acc : Catalog, (acc.map Prod.fst).Nodup →
      ((ls.foldl (catalogAddList normalize resourceTypes) acc).map Prod.fst).Nodup by
    exact h [] (by simp)
  induction ls with
  | nil => intro acc hacc; exact hacc
  | cons l ls ih =>
    intro acc hacc
    rw [List.foldl_cons]
    exact ih _ (nodup_keys_catalogAddList _ _ _ _ hacc)

theorem envSet_ne (env : Env) (key value k : String) (h : k ≠ key) :
    envSet env key value k = env k := by
  simp [envSet, h]

theorem applyServerAndAuthOptions_impersonate (env : Env) (c : RestConfig) :
    (applyServerAndAuthOptions env c).impersonate = c.impersonate := by
  unfold applyServerAndAuthOptions
  dsimp only
  split_ifs <;> rfl

theorem applyServerAndAuthOptions_timeout (env : Env) (c : RestConfig) :
    (applyServerAndAuthOptions env c).timeout = c.timeout := by
  unfold applyServerAndAuthOptions
  dsimp only
  split_ifs <;> rfl

theorem applyTLSAndRequestOptions_impersonate (env : Env) (c : RestConfig) :
    (applyTLSAndRequestOptions env c).2.impersonate = c.impersonate := by
  unfold applyTLSAndRequestOptions
  dsimp only
  split
  · split <;>
      simp [apply_ite (fun x : RestConfig => x.impersonate), ite_self,
        applyServerAndAuthOptions_impersonate]
  · simp [apply_ite (fun x : RestConfig => x.impersonate), ite_self,
      applyServerAndAuthOptions_impersonate]

/-- The overlay tail reads the environment only at its own option keys (the
cluster-name and user-name reads have no effect), so two environments that
agree there yield the same outcome. -/
theorem applyTLSAndRequestOptions_agree (env env' : Env) (c : RestConfig)
    (hCA : env "KUBECTL_PLUGINS_GLOBAL_FLAG_CERTIFICATE_AUTHORITY" =
      env' "KUBECTL_PLUGINS_GLOBAL_FLAG_CERTIFICATE_AUTHORITY")
    (hCert : env "KUBECTL_PLUGINS_GLOBAL_FLAG_CLIENT_CERTIFICATE" =
      env' "KUBECTL_PLUGINS_GLOBAL_FLAG_CLIENT_CERTIFICATE")
    (hKey : env "KUBECTL_PLUGINS_GLOBAL_FLAG_CLIENT_KEY" =
      env' "KUBECTL_PLUGINS_GLOBAL_FLAG_CLIENT_KEY")
    (hTimeout : env "KUBECTL_PLUGINS_GLOBAL_FLAG_REQUEST_TIMEOUT" =
      env' "KUBECTL_PLUGINS_GLOBAL_FLAG_REQUEST_TIMEOUT")
    (hServer : env "KUBECTL_PLUGINS_GLOBAL_FLAG_SERVER" =
      env' "KUBECTL_PLUGINS_GLOBAL_FLAG_SERVER")
    (hToken : env "KUBECTL_PLUGINS_GLOBAL_FLAG_TOKEN" =
      env' "KUBECTL_PLUGINS_GLOBAL_FLAG_TOKEN")
    (hUsername : env "KUBECTL_PLUGINS_GLOBAL_FLAG_USERNAME" =
      env' "KUBECTL_PLUGINS_GLOBAL_FLAG_USERNAME")
    (hPassword : env "KUBECTL_PLUGINS_GLOBAL_FLAG_PASSWORD" =
      env' "KUBECTL_PLUGINS_GLOBAL_FLAG_PASSWORD") :
    applyTLSAndRequestOptions env c = applyTLSAndRequestOptions env' c := by
  unfold applyTLSAndRequestOptions applyServerAndAuthOptions
  rw [hCA, hCert, hKey, hTimeout, hServer, hToken, hUsername, hPassword]
  simp only [ite_self]

/-- The whole overlay reads the environment only at its own option keys,
the ineffective cluster-name and user-name keys excepted. -/
theorem applyGlobalOptionsToConfig_agree (env env' : Env) (c : RestConfig)
    (hAs : env "KUBECTL_PLUGINS_GLOBAL_FLAG_AS" = env' "KUBECTL_PLUGINS_GLOBAL_FLAG_AS")
    (hAsGroup : env "KUBECTL_PLUGINS_GLOBAL_FLAG_AS_GROUP" =
      env' "KUBECTL_PLUGINS_GLOBAL_FLAG_AS_GROUP")
    (hCA : env "KUBECTL_PLUGINS_GLOBAL_FLAG_CERTIFICATE_AUTHORITY" =
      env' "KUBECTL_PLUGINS_GLOBAL_FLAG_CERTIFICATE_AUTHORITY")
    (hCert : env "KUBECTL_PLUGINS_GLOBAL_FLAG_CLIENT_CERTIFICATE" =
      env' "KUBECTL_PLUGINS_GLOBAL_FLAG_CLIENT_CERTIFICATE")
    (hKey : env "KUBECTL_PLUGINS_GLOBAL_FLAG_CLIENT_KEY" =
      env' "KUBECTL_PLUGINS_GLOBAL_FLAG_CLIENT_KEY")
    (hTimeout : env "KUBECTL_PLUGINS_GLOBAL_FLAG_REQUEST_TIMEOUT" =
      env' "KUBECTL_PLUGINS_GLOBAL_FLAG_REQUEST_TIMEOUT")
    (hServer : env "KUBECTL_PLUGINS_GLOBAL_FLAG_SERVER" =
      env' "KUBECTL_PLUGINS_GLOBAL_FLAG_SERVER")
    (hToken : env "KUBECTL_PLUGINS_GLOBAL_FLAG_TOKEN" =
      env' "KUBECTL_PLUGINS_GLOBAL_FLAG_TOKEN")
    (hUsername : env "KUBECTL_PLUGINS_GLOBAL_FLAG_USERNAME" =
      env' "KUBECTL_PLUGINS_GLOBAL_FLAG_USERNAME")
    (hPassword : env "KUBECTL_PLUGINS_GLOBAL_FLAG_PASSWORD" =
      env' "KUBECTL_PLUGINS_GLOBAL_FLAG_PASSWORD") :
    applyGlobalOptionsToConfig env c = applyGlobalOptionsToConfig env' c := by
  have htail : applyTLSAndRequestOptions env = applyTLSAndRequestOptions env' :=
    funext fun c' => applyTLSAndRequestOptions_agree env env' c' hCA hCert hKey hTimeout
      hServer hToken hUsername hPassword
  unfold applyGlobalOptionsToConfig
  rw [hAs, hAsGroup, htail]

/-- When the impersonation-group value is absent or parses to the empty
list, the configuration's group list survives the whole overlay
unchanged. -/
theorem applyGlobalOptions_groups_unchanged (env : Env) (config : RestConfig)
    (h : ∀ gs, jsonUnmarshalStringArray (env "KUBECTL_PLUGINS_GLOBAL_FLAG_AS_GROUP") = .ok gs →
      gs = []) :
    (applyGlobalOptionsToConfig env config).2.impersonate.groups =
      config.impersonate.groups := by
  unfold applyGlobalOptionsToConfig
  dsimp only
  split_ifs with h1 h2
  · cases hj : jsonUnmarshalStringArray (env "KUBECTL_PLUGINS_GLOBAL_FLAG_AS_GROUP") with
    | error e => rfl
    | ok gs =>
      have := h gs hj
      subst this
      dsimp only
      rw [if_neg (by simp)]
      simp [applyTLSAndRequestOptions_impersonate]
  · cases hj : jsonUnmarshalStringArray (env "KUBECTL_PLUGINS_GLOBAL_FLAG_AS_GROUP") with
    | error e => rfl
    | ok gs =>
      have := h gs hj
      subst this
      dsimp only
      rw [if_neg (by simp)]
      simp [applyTLSAndRequestOptions_impersonate]
  · simp [applyTLSAndRequestOptions_impersonate]
  · simp [applyTLSAndRequestOptions_impersonate]

/-- The group step passed, so the overlay is the tail applied to the
configuration after the impersonation steps. -/
theorem applyGlobalOptions_eq_tail (env : Env) (config : RestConfig)
    (hG : env "KUBECTL_PLUGINS_GLOBAL_FLAG_AS_GROUP" ≠ "" →
      ∃ gs, jsonUnmarshalStringArray (env "KUBECTL_PLUGINS_GLOBAL_FLAG_AS_GROUP") = .ok gs) :
    ∃ c', applyGlobalOptionsToConfig env config = applyTLSAndRequestOptions env c' := by
  unfold applyGlobalOptionsToConfig
  dsimp only
  split_ifs with h1 h2
  all_goals try exact ⟨_, rfl⟩
  all_goals {
    obtain ⟨gs, hgs⟩ := hG fun h =>
      (by simp [h] at * : False)
    rw [hgs]
    dsimp only
    split_ifs <;> exact ⟨_, rfl⟩
  }

/-! ### Example data for witnesses and counterexamples -/

/-- A Windows-flavoured environment carrying both `HOME` and the drive+path
variables. -/
def exampleWindowsEnv : Env :=
  envSet (envSet (envSet emptyEnv "HOME" "/home/alice") "HOMEDRIVE" "C:") "HOMEPATH"
    "\\Users\\alice"

/-- One discovery listing with a listable resource the schema provider
declares. -/
def exampleLists : List APIResourceList :=
  [{ groupVersion := "apps/v1",
     apiResources :=
       [{ name := "deployments", kind := "Deployment", namespaced := true,
          verbs := ["get", "list", "watch"] }] }]

/-- A session where configuration resolution failed but every network call
would have succeeded. -/
def exampleFailedInitSession : ClusterSession :=
  { initResult := .error "error obtaining kubectl config",
    discoveryClientResult := .ok (),
    serverPreferredResources := .ok exampleLists,
    providerWrapperResult := .ok { resourceTypes := ["Deployment"] } }

/-- The same session with configuration resolution succeeding. -/
def exampleOkSession : ClusterSession :=
  { exampleFailedInitSession with initResult := .ok () }

/-- A session where opening the discovery connection failed. -/
def exampleDiscoveryFailureSession : ClusterSession :=
  { initResult := .ok (),
    discoveryClientResult := .error "connection refused",
    serverPreferredResources := .ok exampleLists,
    providerWrapperResult := .ok { resourceTypes := ["Deployment"] } }

/-- A discovery listing whose group/version string has two slashes, with a
listable resource the schema provider declares. -/
def exampleBadGroupVersionList : APIResourceList :=
  { groupVersion := "a/b/c",
    apiResources :=
      [{ name := "widgets", kind := "Widget", namespaced := true, verbs := ["list"] }] }

/-- A discovery listing whose only resource supports only `get`. -/
def exampleGetOnlyLists : List APIResourceList :=
  [{ groupVersion := "v1",
     apiResources :=
       [{ name := "componentstatuses", kind := "ComponentStatus", namespaced := false,
          verbs := ["get"] }] }]

/-! ### Claim theorems -/

/-- C1: the kubeconfig path resolved by `initClientAndConfig` always equals
the highest-precedence source present, with precedence explicit config
flag > kubeconfig flag > `KUBECONFIG` environment variable > platform
default; in particular, when all four are supplied the config flag wins. -/
theorem kubeconfig_location_precedence (env : Env) (goos : String) :
    resolveKubeconfigPath env goos =
      if env "KUBECTL_PLUGINS_GLOBAL_FLAG_CONFIG" ≠ "" then
        env "KUBECTL_PLUGINS_GLOBAL_FLAG_CONFIG"
      else if env "KUBECTL_PLUGINS_GLOBAL_FLAG_KUBECONFIG" ≠ "" then
        env "KUBECTL_PLUGINS_GLOBAL_FLAG_KUBECONFIG"
      else if env "KUBECONFIG" ≠ "" then env "KUBECONFIG"
      else defaultKubeconfigPath env goos :=
  resolveKubeconfigPath_eq env goos

/-- C5 counterexample: with every location source absent (every environment
variable empty, non-Windows platform), location resolution does *not* fail
with the configuration-missing error; it succeeds with the relative default
path `.kube/config`, because `filepath.Join(home, ".kube", "config")` is
non-empty even for an empty home directory. -/
theorem initKubeconfigLocation_empty_env_ok :
    initKubeconfigLocation emptyEnv "linux" = .ok ".kube/config" := by rfl

/-- C5 amended: the configuration-missing branch of `initClientAndConfig`
requires the resolved path to be empty, which never happens — the platform
default is always non-empty — so location resolution always succeeds with
the resolved path and the `ConfigurationMissing` error is unreachable. -/
theorem initKubeconfigLocation_never_configuration_missing (env : Env) (goos : String) :
    initKubeconfigLocation env goos = .ok (resolveKubeconfigPath env goos) := by
  simp only [initKubeconfigLocation]
  rw [if_neg fun h =>
    resolveKubeconfigPath_ne_empty env goos ((string_length_eq_zero_iff _).mp h)]

/-- C8: on every platform — `"windows"` included — the home directory used
for the platform-default kubeconfig location is `HOME`; the
`HOMEDRIVE`+`HOMEPATH`/`USERPROFILE` computation in the Windows branch is
assigned to a shadowing variable and discarded, so with `HOME=/home/alice`,
`HOMEDRIVE=C:` and `HOMEPATH=\Users\alice` set, the Windows home resolves
to `/home/alice`, not `C:\Users\alice`. -/
theorem windows_home_ignores_drive_path_variables :
    (∀ env : Env, ∀ goos : String, resolveHome env goos = env "HOME") ∧
    resolveHome exampleWindowsEnv "windows" = "/home/alice" ∧
    exampleWindowsEnv "HOMEDRIVE" ++ exampleWindowsEnv "HOMEPATH" = "C:\\Users\\alice" ∧
    resolveHome exampleWindowsEnv "windows" ≠
      exampleWindowsEnv "HOMEDRIVE" ++ exampleWindowsEnv "HOMEPATH" := by
  refine ⟨fun env goos => ?_, by decide, by decide, by decide⟩
  unfold resolveHome
  split <;> rfl

/-- C4: if opening the discovery connection fails, or the
server-preferred-resources request fails, or the schema-provider session
fails, `GetSupportedService` returns the empty catalog instead of
propagating the failure. -/
theorem getSupportedService_degrades_to_empty (normalize : String → String)
    (s : ClusterSession)
    (h : (∃ e, s.discoveryClientResult = .error e) ∨
      (∃ e, s.serverPreferredResources = .error e) ∨
      (∃ e, s.providerWrapperResult = .error e)) :
    getSupportedService normalize s = [] := by
  obtain ⟨ir, dr, spr, pwr⟩ := s
  rcases h with ⟨e, he⟩ | ⟨e, he⟩ | ⟨e, he⟩
  · subst he; cases ir <;> rfl
  · subst he; cases ir <;> cases dr <;> rfl
  · subst he; cases ir <;> cases dr <;> cases spr <;> rfl

/-- C4 witness: a concrete session whose discovery connection fails yields
the empty catalog. -/
theorem getSupportedService_degrades_to_empty_witness :
    getSupportedService id exampleDiscoveryFailureSession = [] :=
  getSupportedService_degrades_to_empty id exampleDiscoveryFailureSession
    (Or.inl ⟨"connection refused", rfl⟩)

/-- C9 counterexample: `GetSupportedService` *does* convert a
configuration-resolution failure into an empty catalog: with identical
discovery data, a failed `initClientAndConfig` yields the empty catalog
(the return type carries no error at all) while a successful one yields a
non-empty catalog. -/
theorem getSupportedService_swallows_init_failure :
    getSupportedService id exampleFailedInitSession = [] ∧
    getSupportedService id exampleOkSession =
      [("deployments",
        { group := "apps", version := "v1", name := "Deployment", namespaced := true })] := by
  constructor <;> decide

/-- C9 amended: configuration-resolution failures are surfaced as errors to
`initClientAndConfig`'s own callers, but `GetSupportedService` is such a
caller and swallows the failure: whenever `initClientAndConfig` fails it
returns the empty catalog (without even logging), the same degrade-to-empty
behaviour as for network failures. -/
theorem getSupportedService_empty_on_init_failure (normalize : String → String)
    (s : ClusterSession) (e : String) (h : s.initResult = .error e) :
    getSupportedService normalize s = [] := by
  unfold getSupportedService
  rw [h]

/-- C9 witness: the amended statement at the concrete failed-resolution
session. -/
theorem getSupportedService_empty_on_init_failure_witness :
    getSupportedService id exampleFailedInitSession = [] :=
  getSupportedService_empty_on_init_failure id exampleFailedInitSession
    "error obtaining kubectl config" rfl

/-- C2 counterexample: a resource that is listable and declared by the
schema provider is still absent from the catalog when its listing's
group/version string fails to parse (two slashes), so "appears iff listable
and declared" is false as stated. -/
theorem catalog_misses_unparseable_group_version :
    mapLookup (buildCatalog id ["Widget"] [exampleBadGroupVersionList]) "widgets" = none ∧
    (∃ r ∈ exampleBadGroupVersionList.apiResources,
      r.name = "widgets" ∧ "list" ∈ r.verbs ∧ id r.kind ∈ ["Widget"]) := by
  constructor
  · decide
  · exact ⟨_, List.mem_cons_self _ _, rfl, by decide, by decide⟩

/-- C2 amended: a resource name is a catalog key iff some discovery entry
whose group/version string parses lists a resource under that plural name
with `"list"` among its verbs and its normalized kind declared by the
schema provider; keys are unique; and the stored `Kind` carries group,
version, original kind name and namespaced flag copied from such a
matching discovery entry. -/
theorem catalog_membership_characterization (normalize : String → String)
    (resourceTypes : List String) (lists : List APIResourceList) (n : String) :
    ((mapLookup (buildCatalog normalize resourceTypes lists) n).isSome ↔
      ∃ l ∈ lists, ∃ gv, parseGroupVersion l.groupVersion = .ok gv ∧
        ∃ r ∈ l.apiResources, r.name = n ∧ "list" ∈ r.verbs ∧
          normalize r.kind ∈ resourceTypes)
    ∧ ((buildCatalog normalize resourceTypes lists).map Prod.fst).Nodup
    ∧ (∀ k, mapLookup (buildCatalog normalize resourceTypes lists) n = some k →
        ∃ l ∈ lists, ∃ gv, parseGroupVersion l.groupVersion = .ok gv ∧
          ∃ r ∈ l.apiResources, r.name = n ∧ "list" ∈ r.verbs ∧
            normalize r.kind ∈ resourceTypes ∧
            k = { group := gv.group, version := gv.version, name := r.kind,
                  namespaced := r.namespaced }) := by
  refine ⟨⟨fun h => ?_, fun h => ?_⟩, nodup_keys_buildCatalog _ _ _, fun k hk => ?_⟩
  · obtain ⟨k, hk⟩ := Option.isSome_iff_exists.mp h
    rw [mapLookup_buildCatalog] at hk
    obtain ⟨l, hl, gv, hgv, r, hr, hacc, hname, _⟩ := lastHitList_eq_some _ _ _ _ _ hk
    exact ⟨l, hl, gv, hgv, r, hr, hname, hacc.1, hacc.2⟩
  · obtain ⟨l, hl, gv, hgv, r, hr, hname, hverb, htype⟩ := h
    rw [mapLookup_buildCatalog]
    cases hx : lastHitList normalize resourceTypes n lists with
    | some k => simp
    | none =>
      exact absurd ⟨⟨hverb, htype⟩, hname⟩
        ((lastHitList_eq_none_iff _ _ _ _).mp hx l hl gv hgv r hr)
  · rw [mapLookup_buildCatalog] at hk
    obtain ⟨l, hl, gv, hgv, r, hr, hacc, hname, hkind⟩ := lastHitList_eq_some _ _ _ _ _ hk
    exact ⟨l, hl, gv, hgv, r, hr, hname, hacc.1, hacc.2, hkind⟩

/-- C2 witness: the characterization applied at a concrete catalog,
extracting the matching discovery entry for a present key. -/
theorem catalog_membership_characterization_witness :
    ∃ l ∈ exampleLists, ∃ gv, parseGroupVersion l.groupVersion = .ok gv ∧
      ∃ r ∈ l.apiResources, r.name = "deployments" ∧ "list" ∈ r.verbs ∧
        id r.kind ∈ ["Deployment"] :=
  (catalog_membership_characterization id ["Deployment"] exampleLists "deployments").1.mp
    (by decide)

/-- C3: a resource type whose verb set is empty or lacks `"list"` never
appears in the catalog: if every discovery entry under a plural name lacks
`"list"`, that name is absent from the catalog. -/
theorem catalog_excludes_unlistable (normalize : String → String)
    (resourceTypes : List String) (lists : List APIResourceList) (n : String)
    (h : ∀ l ∈ lists, ∀ r ∈ l.apiResources, r.name = n → "list" ∉ r.verbs) :
    mapLookup (buildCatalog normalize resourceTypes lists) n = none := by
  rw [mapLookup_buildCatalog, lastHitList_eq_none_iff]
  intro l hl gv _ r hr hx
  exact h l hl r hr hx.2 hx.1.1

/-- C3 witness: a get-only resource is absent from the concrete catalog. -/
theorem catalog_excludes_unlistable_witness :
    mapLookup (buildCatalog id ["ComponentStatus"] exampleGetOnlyLists)
      "componentstatuses" = none :=
  catalog_excludes_unlistable id ["ComponentStatus"] exampleGetOnlyLists
    "componentstatuses" (by decide)

theorem applyTLSAndRequestOptions_timeout_10s (env : Env) (c : RestConfig)
    (h : env "KUBECTL_PLUGINS_GLOBAL_FLAG_REQUEST_TIMEOUT" = "10s") :
    (applyTLSAndRequestOptions env c).1 = none ∧
    (applyTLSAndRequestOptions env c).2.timeout = 10000000000 := by
  unfold applyTLSAndRequestOptions
  dsimp only
  rw [h, if_pos (by decide : ("10s" : String).length > 0),
    show timeParseDuration "10s" = .ok 10000000000 from rfl]
  exact ⟨rfl, by simp [applyServerAndAuthOptions_timeout]⟩

theorem applyTLSAndRequestOptions_timeout_error (env : Env) (c : RestConfig) (msg : String)
    (he : timeParseDuration (env "KUBECTL_PLUGINS_GLOBAL_FLAG_REQUEST_TIMEOUT") = .error msg)
    (hne : env "KUBECTL_PLUGINS_GLOBAL_FLAG_REQUEST_TIMEOUT" ≠ "") :
    (applyTLSAndRequestOptions env c).1 = some msg := by
  unfold applyTLSAndRequestOptions
  dsimp only
  rw [if_pos (Nat.pos_of_ne_zero fun hh => hne ((string_length_eq_zero_iff _).mp hh)), he]

/-- C10: the cluster-name and user-name environment overrides are read but
have no effect: the overlay's outcome with any values for these two
variables equals the outcome with both empty. -/
theorem cluster_user_overrides_no_effect (env : Env) (config : RestConfig) (v u : String) :
    applyGlobalOptionsToConfig
        (envSet (envSet env "KUBECTL_PLUGINS_GLOBAL_FLAG_CLUSTER" v)
          "KUBECTL_PLUGINS_GLOBAL_FLAG_USER" u) config =
      applyGlobalOptionsToConfig
        (envSet (envSet env "KUBECTL_PLUGINS_GLOBAL_FLAG_CLUSTER" "")
          "KUBECTL_PLUGINS_GLOBAL_FLAG_USER" "") config := by
  apply applyGlobalOptionsToConfig_agree <;>
    rw [envSet_ne _ _ _ _ (by decide), envSet_ne _ _ _ _ (by decide),
      envSet_ne _ _ _ _ (by decide), envSet_ne _ _ _ _ (by decide)]

/-- C6: a non-empty impersonation-group value that fails to parse as a JSON
array of strings makes the overlay fail with the error naming `--as-group`,
leaving the configuration's group list unchanged; a value parsing to the
empty array is treated as absent: the outcome equals the outcome with the
variable unset, and the group list is unchanged. -/
theorem as_group_override (env : Env) (config : RestConfig) :
    (∀ e, env "KUBECTL_PLUGINS_GLOBAL_FLAG_AS_GROUP" ≠ "" →
      jsonUnmarshalStringArray (env "KUBECTL_PLUGINS_GLOBAL_FLAG_AS_GROUP") = .error e →
      (applyGlobalOptionsToConfig env config).1 =
        some ("error parsing global option \"--as-group\": " ++ e) ∧
      (applyGlobalOptionsToConfig env config).2.impersonate.groups =
        config.impersonate.groups)
    ∧ (jsonUnmarshalStringArray (env "KUBECTL_PLUGINS_GLOBAL_FLAG_AS_GROUP") = .ok [] →
      applyGlobalOptionsToConfig env config =
        applyGlobalOptionsToConfig
          (envSet env "KUBECTL_PLUGINS_GLOBAL_FLAG_AS_GROUP" "") config ∧
      (applyGlobalOptionsToConfig env config).2.impersonate.groups =
        config.impersonate.groups) := by
  constructor
  · intro e hne he
    refine ⟨?_, applyGlobalOptions_groups_unchanged env config fun gs hgs => by
      rw [he] at hgs; cases hgs⟩
    unfold applyGlobalOptionsToConfig
    dsimp only
    rw [if_pos (Nat.pos_of_ne_zero fun hh => hne ((string_length_eq_zero_iff _).mp hh)), he]
  · intro hok
    refine ⟨?_, applyGlobalOptions_groups_unchanged env config fun gs hgs => by
      rw [hok] at hgs; injection hgs with h; exact h.symm⟩
    by_cases hg : env "KUBECTL_PLUGINS_GLOBAL_FLAG_AS_GROUP" = ""
    · have henv : envSet env "KUBECTL_PLUGINS_GLOBAL_FLAG_AS_GROUP" "" = env :=
        funext fun k => by
          by_cases hk : k = "KUBECTL_PLUGINS_GLOBAL_FLAG_AS_GROUP"
          · subst hk; simp [envSet, hg]
          · simp [envSet, hk]
      rw [henv]
    · have hlen : (env "KUBECTL_PLUGINS_GLOBAL_FLAG_AS_GROUP").length > 0 :=
        Nat.pos_of_ne_zero fun hh => hg ((string_length_eq_zero_iff _).mp hh)
      have henvG : envSet env "KUBECTL_PLUGINS_GLOBAL_FLAG_AS_GROUP" ""
          "KUBECTL_PLUGINS_GLOBAL_FLAG_AS_GROUP" = "" := by simp [envSet]
      have hAS : envSet env "KUBECTL_PLUGINS_GLOBAL_FLAG_AS_GROUP" ""
          "KUBECTL_PLUGINS_GLOBAL_FLAG_AS" = env "KUBECTL_PLUGINS_GLOBAL_FLAG_AS" :=
        envSet_ne _ _ _ _ (by decide)
      unfold applyGlobalOptionsToConfig
      dsimp only
      rw [if_pos hlen, hok, henvG, hAS,
        if_neg (by decide : ¬(("" : String).length > 0))]
      dsimp only
      rw [if_neg (by decide : ¬(([] : List String).length > 0))]
      exact applyTLSAndRequestOptions_agree _ _ _
        (envSet_ne _ _ _ _ (by decide)).symm (envSet_ne _ _ _ _ (by decide)).symm
        (envSet_ne _ _ _ _ (by decide)).symm (envSet_ne _ _ _ _ (by decide)).symm
        (envSet_ne _ _ _ _ (by decide)).symm (envSet_ne _ _ _ _ (by decide)).symm
        (envSet_ne _ _ _ _ (by decide)).symm (envSet_ne _ _ _ _ (by decide)).symm

/-- C6 witness: the malformed value `"notjson"` produces the
`--as-group`-naming error with the group list untouched, and the
empty-array value `"[]"` behaves exactly as an absent variable. -/
theorem as_group_override_witness :
    ((applyGlobalOptionsToConfig
          (envSet emptyEnv "KUBECTL_PLUGINS_GLOBAL_FLAG_AS_GROUP" "notjson")
          emptyRestConfig).1 =
        some ("error parsing global option \"--as-group\": " ++
          "invalid character in literal null") ∧
      (applyGlobalOptionsToConfig
          (envSet emptyEnv "KUBECTL_PLUGINS_GLOBAL_FLAG_AS_GROUP" "notjson")
          emptyRestConfig).2.impersonate.groups = emptyRestConfig.impersonate.groups) ∧
    (applyGlobalOptionsToConfig
        (envSet emptyEnv "KUBECTL_PLUGINS_GLOBAL_FLAG_AS_GROUP" "[]") emptyRestConfig =
      applyGlobalOptionsToConfig
        (envSet (envSet emptyEnv "KUBECTL_PLUGINS_GLOBAL_FLAG_AS_GROUP" "[]")
          "KUBECTL_PLUGINS_GLOBAL_FLAG_AS_GROUP" "") emptyRestConfig ∧
      (applyGlobalOptionsToConfig
          (envSet emptyEnv "KUBECTL_PLUGINS_GLOBAL_FLAG_AS_GROUP" "[]")
          emptyRestConfig).2.impersonate.groups = emptyRestConfig.impersonate.groups) :=
  ⟨(as_group_override _ emptyRestConfig).1 "invalid character in literal null"
      (by decide) rfl,
   (as_group_override _ emptyRestConfig).2 rfl⟩

/-- C7 counterexample: with the request-timeout value `"notaduration"`, the
overlay fails, but the error is the bare duration-parse message
(`errors.New(fmt.Sprintf("%v", err))`), which contains neither the option
name `--request-timeout` nor the environment variable name — so "surfaced
with the offending option name" is false. -/
theorem request_timeout_error_lacks_option_name :
    (applyGlobalOptionsToConfig
        (envSet emptyEnv "KUBECTL_PLUGINS_GLOBAL_FLAG_REQUEST_TIMEOUT" "notaduration")
        emptyRestConfig).1 =
      some "time: invalid duration \"notaduration\"" ∧
    ¬ ("--request-timeout".toList <:+:
      ("time: invalid duration \"notaduration\"").toList) ∧
    ¬ ("KUBECTL_PLUGINS_GLOBAL_FLAG_REQUEST_TIMEOUT".toList <:+:
      ("time: invalid duration \"notaduration\"").toList) :=
  ⟨by rfl, by decide, by decide⟩

/-- C7 amended: when the impersonation-group step passes, a request-timeout
value of `"10s"` sets the configuration timeout to exactly 10 seconds
(10^10 nanoseconds) with no error, and an invalid duration value fails the
overlay with the bare duration-parse error message (which carries the
offending value, not the option name). -/
theorem request_timeout_override (env : Env) (config : RestConfig)
    (hG : env "KUBECTL_PLUGINS_GLOBAL_FLAG_AS_GROUP" ≠ "" →
      ∃ gs, jsonUnmarshalStringArray (env "KUBECTL_PLUGINS_GLOBAL_FLAG_AS_GROUP") = .ok gs) :
    (env "KUBECTL_PLUGINS_GLOBAL_FLAG_REQUEST_TIMEOUT" = "10s" →
      (applyGlobalOptionsToConfig env config).1 = none ∧
      (applyGlobalOptionsToConfig env config).2.timeout = 10000000000)
    ∧ (∀ msg,
      timeParseDuration (env "KUBECTL_PLUGINS_GLOBAL_FLAG_REQUEST_TIMEOUT") = .error msg →
      env "KUBECTL_PLUGINS_GLOBAL_FLAG_REQUEST_TIMEOUT" ≠ "" →
      (applyGlobalOptionsToConfig env config).1 = some msg) := by
  obtain ⟨c', hc'⟩ := applyGlobalOptions_eq_tail env config hG
  rw [hc']
  exact ⟨fun h => applyTLSAndRequestOptions_timeout_10s env c' h,
    fun msg he hne => applyTLSAndRequestOptions_timeout_error env c' msg he hne⟩

/-- C7 witness: the amended statement at the concrete environment carrying
`"10s"`. -/
theorem request_timeout_override_witness :
    (applyGlobalOptionsToConfig
        (envSet emptyEnv "KUBECTL_PLUGINS_GLOBAL_FLAG_REQUEST_TIMEOUT" "10s")
        emptyRestConfig).1 = none ∧
    (applyGlobalOptionsToConfig
        (envSet emptyEnv "KUBECTL_PLUGINS_GLOBAL_FLAG_REQUEST_TIMEOUT" "10s")
        emptyRestConfig).2.timeout = 10000000000 :=
  (request_timeout_override _ emptyRestConfig (fun h => absurd rfl h)).1 rfl

end Terraformer.Kubernetes
